import Mathlib

/-!
Shallow embedding of the `ai-poet` feature loader and selection service
(`src/pdf_utils.py`, `src/main.py`).

File-system effects (existence checks, modification times, the JSON cache
file, the PDF's extracted page texts) are modelled by an explicit `FS`
record; the FAISS similarity search, whose results come from an external
embedding provider, is modelled by an oracle function supplied as a
parameter.  Python dictionaries are modelled as ordered association lists
with overwrite-on-insert, matching dict insertion-order semantics; `float`
modification times are modelled by rationals (only their order is used).
-/

namespace AiPoet

/-- Is `sep` a prefix of `l`? -/
def isPrefixList : List Char → List Char → Bool
  | [], _ => true
  | _ :: _, [] => false
  | a :: as, b :: bs => a == b && isPrefixList as bs

/-- Fuel-driven splitting on a non-empty separator: at each position either
the separator matches (cut there, skip it) or the character joins the
current segment.  With `fuel ≥ l.length` this computes Python
`str.split(sep)` (non-overlapping matches, left to right, empty segments
kept); the fuel keeps the recursion structural so the kernel can
evaluate it. -/
def splitCharsF (sep : List Char) : Nat → List Char → List (List Char)
  | _, [] => [[]]
  | 0, l => [l]
  | fuel + 1, c :: rest =>
    if isPrefixList sep (c :: rest) then
      [] :: splitCharsF sep fuel (List.drop (sep.length - 1) rest)
    else
      match splitCharsF sep fuel rest with
      | [] => [[c]]
      | h :: t => (c :: h) :: t

/-- Python `s.split(sep)` for a non-empty `sep` (CPython also rejects an
empty separator), modelling the `str.split` calls of the source; it agrees
with `String.splitOn` but is kernel-evaluable. -/
def pySplit (s sep : String) : List String :=
  if sep == "" then [s]
  else (splitCharsF sep.data s.data.length s.data).map String.mk

/-- Python `s.strip()`: drop whitespace from both ends (modulo exotic
Unicode whitespace, which the source's data never contains). -/
def pyStrip (s : String) : String :=
  String.mk
    (((s.data.dropWhile Char.isWhitespace).reverse.dropWhile
      Char.isWhitespace).reverse)

/-- Python `sub in s` for a non-empty `sub`: `s.split(sub)` has ≥ 2 parts. -/
def containsSub (s sub : String) : Bool :=
  (pySplit s sub).length ≥ 2

/-- Python `p.split(":", 1)`: the text before the first `:` and the text
after it (the whole string and `""` when there is no `:`). -/
def splitFirstColon (p : String) : String × String :=
  match pySplit p ":" with
  | [] => (p, "")
  | k :: rest => (k, String.intercalate ":" rest)

/-- Python dict assignment `m[k] = v`: replace the value at an existing key,
else append, preserving insertion order. -/
def dictInsert (m : List (String × String)) (k v : String) :
    List (String × String) :=
  if m.any (fun kv => kv.1 == k) then
    m.map (fun kv => if kv.1 == k then (k, v) else kv)
  else m ++ [(k, v)]

/-- Python `m.get(k, d)` on an association list. -/
def dictGet (m : List (String × String)) (k d : String) : String :=
  match m.find? (fun kv => kv.1 == k) with
  | some kv => kv.2
  | none => d

/-- A langchain `Document`: `page_content` plus a metadata dict. -/
structure Doc where
  page_content : String
  metadata : List (String × String)
deriving DecidableEq, Repr

/-- The `meta` dict built by the parsing loop in
`PDFFeatureLoader.load_and_index`: for each ` | `-segment containing `:`,
split at the first `:` and store the trimmed key/value pair. -/
def buildMeta (parts : List String) : List (String × String) :=
  parts.foldl
    (fun m p =>
      if containsSub p ":" then
        dictInsert m (pyStrip (splitFirstColon p).1) (pyStrip (splitFirstColon p).2)
      else m)
    []

/-- One iteration of the line loop of `load_and_index`: a line containing
both `"ID: "` and `" | "` becomes a `Doc`; any other line is skipped. -/
def parseLine (pdf_path line : String) : Option Doc :=
  if containsSub line "ID: " && containsSub line " | " then
    let meta := buildMeta (pySplit line " | ")
    some { page_content := line,
           metadata :=
             [("source", pdf_path),
              ("feature_name", dictGet meta "ID" "Unknown"),
              ("category", dictGet meta "CAT" ""),
              ("description", dictGet meta "DESC" ""),
              ("value", dictGet meta "VAL" "0")] }
  else
    none

/-- The whole line loop over the split text. -/
def parseLines (pdf_path : String) (lines : List String) : List Doc :=
  lines.filterMap (parseLine pdf_path)

/-- The `raw_text` accumulation: each page's extracted text followed by a newline. -/
def extractRawText (pages : List String) : String :=
  String.join (pages.map (fun p => p ++ "\n"))

/-- PDF parsing: extract the text, split on newlines, decode each line. -/
def parsePdf (pdf_path : String) (pages : List String) : List Doc :=
  parseLines pdf_path (pySplit (extractRawText pages) "\n")

/-- One serialized cache entry: a JSON object that may or may not carry the
`page_content` and `metadata` keys. -/
structure CacheItem where
  page_content : Option String
  metadata : Option (List (String × String))
deriving DecidableEq, Repr

/-- The serialized shape written by `_save_to_json`: both keys always present. -/
def save_to_json (documents : List Doc) : List CacheItem :=
  documents.map (fun d => { page_content := some d.page_content,
                            metadata := some d.metadata })

/-- The deserialization loop of `_load_from_json`:
`item.get("page_content", "")` and `item.get("metadata", {})`. -/
def docsOfItems (items : List CacheItem) : List Doc :=
  items.map (fun it => { page_content := it.page_content.getD "",
                         metadata := it.metadata.getD [] })

/-- The observable file-system state `PDFFeatureLoader` reads.
`cacheContent = none` models a cache file whose read or JSON decode raises
(missing, unreadable or corrupt); `some items` a well-formed JSON array. -/
structure FS where
  pdf_exists : Bool
  pdf_mtime : ℚ
  json_exists : Bool
  json_mtime : ℚ
  cacheContent : Option (List CacheItem)
  pdf_pages : List String

/-- Python `_get_file_mtime`: the file's mtime, or `0.0` when it does not exist. -/
def get_file_mtime (exists_ : Bool) (mtime : ℚ) : ℚ :=
  if exists_ then mtime else 0

/-- Python `_load_from_json`: deserialize the cache, returning `[]` when reading or
decoding raises (the `except` branch). -/
def load_from_json (fs : FS) : List Doc :=
  match fs.cacheContent with
  | some items => docsOfItems items
  | none => []

/-- The cache-validity test of `load_and_index` step 1. -/
def cacheValid (fs : FS) : Bool :=
  fs.pdf_exists && fs.json_exists &&
    decide (get_file_mtime fs.json_exists fs.json_mtime ≥
            get_file_mtime fs.pdf_exists fs.pdf_mtime)

/-- The observable outcome of one `load_and_index` call: the vector store
it leaves behind (`none` = never assigned and previously `None`), what it
wrote to the cache file, whether it read the cache, whether it parsed the
PDF. -/
structure LoadResult where
  vector_store : Option (List Doc)
  cache_written : Option (List Doc)
  cache_read : Bool
  parsed_pdf : Bool
deriving DecidableEq, Repr

/-- Python `PDFFeatureLoader.load_and_index`. `prev` is the value of
`self.vector_store` on entry (the early `return` and the zero-document
fall-through leave it untouched). -/
def load_and_index (pdf_path : String) (fs : FS) (prev : Option (List Doc)) :
    LoadResult :=
  let valid := cacheValid fs
  let documents0 := if valid then load_from_json fs else []
  if documents0.isEmpty then
    if !fs.pdf_exists then
      { vector_store := prev, cache_written := none,
        cache_read := valid, parsed_pdf := false }
    else
      let documents := parsePdf pdf_path fs.pdf_pages
      { vector_store := if documents.isEmpty then prev else some documents,
        cache_written := if documents.isEmpty then none else some documents,
        cache_read := valid, parsed_pdf := true }
  else
    { vector_store := some documents0, cache_written := none,
      cache_read := valid, parsed_pdf := false }

/-- One element of the result list of `search_similar_features`. -/
structure SearchHit where
  raw_text : String
  metadata : List (String × String)
  similarity_score : ℚ
deriving DecidableEq, Repr

/-- The similarity-search capability: given the indexed documents, a query
and `k`, the scored hits FAISS would return. -/
def Oracle : Type :=
  List Doc → String → Nat → List (Doc × ℚ)

/-- Python `PDFFeatureLoader.search_similar_features`: lazily build the index,
return `[]` when there still is none, else map the scored documents to
result records. -/
def search_similar_features (pdf_path : String) (fs : FS) (oracle : Oracle)
    (prev : Option (List Doc)) (query : String) (k : Nat) : List SearchHit :=
  let store := if prev.isNone then
      (load_and_index pdf_path fs prev).vector_store
    else prev
  match store with
  | none => []
  | some s =>
      (oracle s query k).map (fun ds =>
        { raw_text := ds.1.page_content,
          metadata := ds.1.metadata,
          similarity_score := ds.2 })

/-- Model of `DailyQuantity` (main.py): per-day send quantity. -/
structure DailyQuantity where
  day_number : Int
  quantity : Int
deriving DecidableEq, Repr

/-- Model of `MarketingPlan` (main.py): the campaign parameters.  Only
`campaign_keywords` and `product_name` are consumed by the selection
service. -/
structure MarketingPlan where
  product_name : String
  start_date : String
  total_quantity : Int
  daily_quantities : List DailyQuantity
  target_gender : String
  target_age_min : Int
  target_age_max : Int
  campaign_keywords : String
deriving DecidableEq, Repr

/-- Model of `SelectedFeature` (main.py). -/
structure SelectedFeature where
  name : String
  reason : String
  similarity_score : ℚ
deriving DecidableEq, Repr

/-- The loop body of `FeatureEngine.select_features_semantically`:
one search hit mapped to a `SelectedFeature`, with the metadata
fallbacks of `meta.get`. -/
def hitToSelectedFeature (res : SearchHit) : SelectedFeature :=
  let meta := res.metadata
  let cat := dictGet meta "category" ""
  let base_name := dictGet meta "feature_name" "Unknown_Feature"
  let feat_name := "[" ++ cat ++ "] " ++ base_name
  let feat_desc := dictGet meta "description" res.raw_text
  let feat_val := dictGet meta "value" "0"
  let reason := "입력된 키워드와 \x27" ++ feat_desc ++ "\x27(값: " ++
    feat_val ++ ") 간의 연관성이 높음"
  { name := feat_name, reason := reason,
    similarity_score := res.similarity_score }

/-- The query string of `select_features_semantically`:
`" ".join(plan.campaign_keywords.split(",") + [plan.product_name])`. -/
def buildSearchQuery (plan : MarketingPlan) : String :=
  String.intercalate " " (pySplit plan.campaign_keywords "," ++
    [plan.product_name])

/-- Python `select_features_semantically` with the search capability abstracted:
build the query, search with `k = 10`, map each hit. -/
def select_features_core (searchFn : String → Nat → List SearchHit)
    (plan : MarketingPlan) : List SelectedFeature :=
  (searchFn (buildSearchQuery plan) 10).map hitToSelectedFeature

/-- Python `FeatureEngine.select_features_semantically`, its search performed by
the loader's `search_similar_features`. -/
def select_features_semantically (pdf_path : String) (fs : FS)
    (oracle : Oracle) (prev : Option (List Doc)) (plan : MarketingPlan) :
    List SelectedFeature :=
  select_features_core (search_similar_features pdf_path fs oracle prev) plan

/-! ### Spec-side formulations

Independent restatements of the spec's wording, to be related to the
definitions embedded from the source. -/

/-- Spec-side: the trimmed (key, value) pairs of the segments that contain
a `:`, in segment order. -/
def segPairs (parts : List String) : List (String × String) :=
  parts.filterMap (fun p =>
    if containsSub p ":" then
      some (pyStrip (splitFirstColon p).1, pyStrip (splitFirstColon p).2)
    else none)

/-- Spec-side: the value a field mapping accumulated from `pairs` holds at
key `k` — the value of the last pair whose key is `k`, else the default. -/
def lastValue (pairs : List (String × String)) (k d : String) : String :=
  match pairs.reverse.find? (fun kv => kv.1 == k) with
  | some kv => kv.2
  | none => d

/-- Spec-side: "concatenate all terms with single spaces". -/
def joinSpaces : List String → String
  | [] => ""
  | [t] => t
  | t :: u :: ts => t ++ " " ++ joinSpaces (u :: ts)

/-! ### Dictionary lemmas -/

lemma dictGet_map_replace_ne (m : List (String × String)) (a b k d : String)
    (hak : (a == k) = false) :
    dictGet (m.map (fun kv => if kv.1 == a then (a, b) else kv)) k d =
      dictGet m k d := by
  induction m with
  | nil => rfl
  | cons kv rest ih =>
    by_cases hkv : kv.1 == a
    · have h1 : kv.1 = a := by simpa using hkv
      have h2 : (kv.1 == k) = false := by simp [h1]; simpa using hak
      simpa [dictGet, List.find?, hkv, hak, h2] using ih
    · have hkv' : (kv.1 == a) = false := by simpa using hkv
      by_cases hkk : kv.1 == k
      · simp [dictGet, List.find?, hkv', hkk]
      · have hkk' : (kv.1 == k) = false := by simpa using hkk
        simpa [dictGet, List.find?, hkv', hkk'] using ih

lemma dictGet_map_replace_self (m : List (String × String)) (a b d : String)
    (hm : m.any (fun kv => kv.1 == a)) :
    dictGet (m.map (fun kv => if kv.1 == a then (a, b) else kv)) a d = b := by
  induction m with
  | nil => simp at hm
  | cons kv rest ih =>
    by_cases hkv : kv.1 == a
    · simp [dictGet, List.find?, hkv]
    · have hkv' : (kv.1 == a) = false := by simpa using hkv
      have hrest : rest.any (fun kv => kv.1 == a) := by
        simpa [List.any_cons, hkv'] using hm
      simpa [dictGet, List.find?, hkv'] using ih hrest

lemma dictGet_dictInsert (m : List (String × String)) (a b k d : String) :
    dictGet (dictInsert m a b) k d = if a == k then b else dictGet m k d := by
  unfold dictInsert
  by_cases hmem : m.any (fun kv => kv.1 == a)
  · simp only [hmem, if_true]
    by_cases hak : a == k
    · have h1 : a = k := by simpa using hak
      subst h1
      simpa [hak] using dictGet_map_replace_self m a b d hmem
    · have hak' : (a == k) = false := by simpa using hak
      simpa [hak'] using dictGet_map_replace_ne m a b k d hak'
  · have hmem' : (m.any fun kv => kv.1 == a) = false := by
      simp only [Bool.not_eq_true] at hmem
      exact hmem
    simp only [hmem', Bool.false_eq_true, if_false]
    unfold dictGet
    rw [List.find?_append]
    by_cases hak : a == k
    · have h1 : a = k := by simpa using hak
      have hnone : m.find? (fun kv => kv.1 == k) = none := by
        rw [List.find?_eq_none]
        intro kv hkv hkk
        exact hmem (List.any_eq_true.mpr ⟨kv, hkv, by
          have : kv.1 = k := by simpa using hkk
          simp [this, h1]⟩)
      simp [hnone, Option.or, List.find?, hak, h1]
    · have hak' : (a == k) = false := by simpa using hak
      cases hfind : m.find? (fun kv => kv.1 == k) with
      | some kv => simp [Option.or, hfind, hak]
      | none => simp [Option.or, hfind, List.find?, hak', hak]

lemma lastValue_cons (a b k x : String) (rest : List (String × String)) :
    lastValue ((a, b) :: rest) k x =
      lastValue rest k (if a == k then b else x) := by
  unfold lastValue
  rw [List.reverse_cons, List.find?_append]
  cases hfind : rest.reverse.find? (fun kv => kv.1 == k) with
  | some kv => simp [Option.or, hfind]
  | none =>
    by_cases hak : a == k
    · simp [Option.or, hfind, List.find?, hak]
    · have : (a == k) = false := by simpa using hak
      simp [Option.or, hfind, List.find?, this, hak]

lemma dictGet_foldl_dictInsert (pairs : List (String × String)) :
    ∀ (m : List (String × String)) (k d : String),
      dictGet (pairs.foldl (fun m kv => dictInsert m kv.1 kv.2) m) k d =
        lastValue pairs k (dictGet m k d) := by
  induction pairs with
  | nil => intro m k d; simp [lastValue]
  | cons kv rest ih =>
    intro m k d
    rw [List.foldl_cons, ih, dictGet_dictInsert, lastValue_cons]

lemma buildMeta_eq_foldl_segPairs (parts : List String) :
    buildMeta parts =
      (segPairs parts).foldl (fun m kv => dictInsert m kv.1 kv.2) [] := by
  unfold buildMeta segPairs
  generalize hm : ([] : List (String × String)) = m
  clear hm
  induction parts generalizing m with
  | nil => rfl
  | cons p rest ih =>
    by_cases hp : containsSub p ":"
    · simp only [List.foldl_cons, List.filterMap_cons, hp, if_true]
      exact ih _
    · have hp' : containsSub p ":" = false := by simpa using hp
      simp only [List.foldl_cons, List.filterMap_cons, hp', if_false]
      exact ih m

/-- The dict built by the parsing loop agrees with the spec-side
last-pair-wins reading of the accumulated field mapping. -/
lemma dictGet_buildMeta (parts : List String) (k d : String) :
    dictGet (buildMeta parts) k d = lastValue (segPairs parts) k d := by
  rw [buildMeta_eq_foldl_segPairs, dictGet_foldl_dictInsert]
  rfl

/-- Spec-side: the value stored at key `k`, when the key is present. -/
def keyVal? (m : List (String × String)) (k : String) : Option String :=
  (m.find? (fun kv => kv.1 == k)).map (fun kv => kv.2)

lemma dictGet_of_keyVal (m : List (String × String)) (k d v : String)
    (h : keyVal? m k = some v) : dictGet m k d = v := by
  unfold keyVal? at h
  unfold dictGet
  cases hf : m.find? (fun kv => kv.1 == k) with
  | none => simp [hf] at h
  | some kv =>
    simp only [hf]
    rw [hf] at h
    have h' : some kv.2 = some v := h
    exact Option.some.inj h'

lemma joinSpaces_cons_append (x y : String) (as : List String) :
    joinSpaces ((x ++ " " ++ y) :: as) = x ++ " " ++ joinSpaces (y :: as) := by
  cases as with
  | nil => rfl
  | cons b bs => simp [joinSpaces, String.append_assoc]

lemma intercalate_go_joinSpaces (l : List String) :
    ∀ acc, String.intercalate.go acc " " l = joinSpaces (acc :: l) := by
  induction l with
  | nil => intro acc; rfl
  | cons a as ih =>
    intro acc
    show String.intercalate.go (acc ++ " " ++ a) " " as = _
    rw [ih, joinSpaces_cons_append]
    rfl

/-- Joining with `" "` is the spec's "concatenate with single spaces between". -/
lemma intercalate_space_eq_joinSpaces (l : List String) :
    String.intercalate " " l = joinSpaces l := by
  cases l with
  | nil => rfl
  | cons a as =>
    show String.intercalate.go a " " as = _
    rw [intercalate_go_joinSpaces]

lemma buildMeta_filter (parts : List String) :
    buildMeta parts =
      buildMeta (parts.filter (fun p => containsSub p ":")) := by
  unfold buildMeta
  generalize ([] : List (String × String)) = m
  induction parts generalizing m with
  | nil => rfl
  | cons p rest ih =>
    by_cases hp : containsSub p ":"
    · simp only [List.filter_cons, hp, if_true, List.foldl_cons]
      exact ih _
    · have hp' : containsSub p ":" = false := by simpa using hp
      simp only [List.filter_cons, hp', Bool.false_eq_true, if_false,
        List.foldl_cons, hp']
      exact ih m

lemma docsOfItems_save (documents : List Doc) :
    docsOfItems (save_to_json documents) = documents := by
  induction documents with
  | nil => rfl
  | cons d ds ih =>
    simp only [save_to_json, docsOfItems, List.map_cons, List.map_map] at *
    simp [ih]

/-! ### Claims -/

/-- C5: for every list of records, saving them to the JSON cache and
loading the cache back yields records with identical structured content
(page_content and metadata mapping), in the same order. -/
theorem C5_cache_round_trip (documents : List Doc) (b1 b2 : Bool)
    (q1 q2 : ℚ) (pages : List String) :
    load_from_json
        { pdf_exists := b1, pdf_mtime := q1, json_exists := b2,
          json_mtime := q2, cacheContent := some (save_to_json documents),
          pdf_pages := pages } = documents := by
  show docsOfItems (save_to_json documents) = documents
  exact docsOfItems_save documents

/-- C9: the index query string is built by concatenating all keyword terms
(the comma-split segments of `campaign_keywords`) and the product name,
with single spaces between terms. -/
theorem C9_query_concatenation (plan : MarketingPlan)
    (searchFn : String → Nat → List SearchHit) :
    buildSearchQuery plan =
      joinSpaces (pySplit plan.campaign_keywords "," ++
        [plan.product_name]) ∧
    select_features_core searchFn plan =
      (searchFn (joinSpaces (pySplit plan.campaign_keywords "," ++
        [plan.product_name])) 10).map hitToSelectedFeature := by
  have hq : buildSearchQuery plan =
      joinSpaces (pySplit plan.campaign_keywords "," ++
        [plan.product_name]) := by
    unfold buildSearchQuery
    exact intercalate_space_eq_joinSpaces _
  refine ⟨hq, ?_⟩
  unfold select_features_core
  rw [hq]

/-- C3: when the source PDF does not exist, `load_and_index` produces no
records, builds no index and writes no cache; every query returns `[]` and
`select_features` returns `[]` (no exception is modelled: all functions
are total). -/
theorem C3_missing_pdf (pdf_path query : String) (k : Nat) (fs : FS)
    (oracle : Oracle) (plan : MarketingPlan)
    (h : fs.pdf_exists = false) :
    (load_and_index pdf_path fs none).vector_store = none ∧
    (load_and_index pdf_path fs none).cache_written = none ∧
    (load_and_index pdf_path fs none).parsed_pdf = false ∧
    search_similar_features pdf_path fs oracle none query k = [] ∧
    select_features_semantically pdf_path fs oracle none plan = [] := by
  have hv : cacheValid fs = false := by simp [cacheValid, h]
  have hload : load_and_index pdf_path fs none =
      { vector_store := none, cache_written := none,
        cache_read := false, parsed_pdf := false } := by
    unfold load_and_index
    simp [hv, h]
  have hsearch : ∀ (q : String) (k' : Nat),
      search_similar_features pdf_path fs oracle none q k' = [] := by
    intro q k'
    unfold search_similar_features
    simp [hload]
  refine ⟨by rw [hload], by rw [hload], by rw [hload], hsearch query k, ?_⟩
  unfold select_features_semantically select_features_core
  rw [hsearch]
  rfl

/-- C3 witness: a concrete state without the PDF. -/
theorem C3_missing_pdf_witness :
    (FS.pdf_exists ⟨false, 0, true, 5, some [⟨some "x", some []⟩], []⟩
       = false) ∧
    search_similar_features "featurelist.pdf"
      ⟨false, 0, true, 5, some [⟨some "x", some []⟩], []⟩
      (fun _ _ _ => []) none "q" 10 = [] ∧
    select_features_semantically "featurelist.pdf"
      ⟨false, 0, true, 5, some [⟨some "x", some []⟩], []⟩
      (fun _ _ _ => []) none ⟨"p", "", 0, [], "", 0, 0, "k"⟩ = [] := by
  refine ⟨rfl, ?_, ?_⟩
  · exact (C3_missing_pdf "featurelist.pdf" "q" 10 _ _
      ⟨"p", "", 0, [], "", 0, 0, "k"⟩ rfl).2.2.2.1
  · exact (C3_missing_pdf "featurelist.pdf" "q" 10 _ _
      ⟨"p", "", 0, [], "", 0, 0, "k"⟩ rfl).2.2.2.2

/-- C6: a failing cache load (modelled by `cacheContent = none`) yields
zero records instead of an error, and when the cache was considered valid
`load_and_index` falls through to a fresh parse of the PDF. -/
theorem C6_cache_load_failure (pdf_path : String) (fs : FS)
    (prev : Option (List Doc)) (h : fs.cacheContent = none) :
    load_from_json fs = [] ∧
    (cacheValid fs = true →
      (load_and_index pdf_path fs prev).parsed_pdf = true) := by
  have hl : load_from_json fs = [] := by
    unfold load_from_json
    rw [h]
  refine ⟨hl, fun hv => ?_⟩
  have hpdf : fs.pdf_exists = true := by
    have := hv
    unfold cacheValid at this
    exact (Bool.and_eq_true_iff.mp
      ((Bool.and_eq_true_iff.mp this).1)).1
  unfold load_and_index
  simp [hv, hl, hpdf]

/-- C6 witness: an mtime-valid but unreadable cache forces a parse. -/
theorem C6_cache_load_failure_witness :
    load_from_json ⟨true, 1, true, 2, none, []⟩ = [] ∧
    (load_and_index "featurelist.pdf" ⟨true, 1, true, 2, none, []⟩
        none).parsed_pdf = true := by
  refine ⟨(C6_cache_load_failure "featurelist.pdf" _ none rfl).1, ?_⟩
  exact (C6_cache_load_failure "featurelist.pdf" _ none rfl).2 (by decide)

/-- C2 counterexample: a cache that is valid by the mtime test (PDF at
mtime 1, cache at mtime 2) but deserializes to zero records (an empty JSON
array) — document parsing is NOT skipped, refuting "skips document parsing
… if and only if" the mtime validity condition. -/
theorem C2_counterexample :
    ¬ (((load_and_index "featurelist.pdf"
          ⟨true, 1, true, 2, some [], []⟩ none).parsed_pdf = false) ↔
        cacheValid ⟨true, 1, true, 2, some [], []⟩ = true) := by
  decide

/-- C2 amended: the function `load_and_index` attempts the cache load iff the PDF
exists, the cache file exists and the cache mtime is ≥ the PDF mtime
(a missing file's mtime treated as 0.0); it parses the PDF iff the PDF
exists and the cache was not both valid and non-empty; in particular a
strictly older cache (PDF existing) always forces a re-parse. -/
theorem C2_cache_validity (pdf_path : String) (fs : FS)
    (prev : Option (List Doc)) :
    (load_and_index pdf_path fs prev).cache_read = cacheValid fs ∧
    cacheValid fs = (fs.pdf_exists && fs.json_exists &&
      decide (get_file_mtime fs.json_exists fs.json_mtime ≥
              get_file_mtime fs.pdf_exists fs.pdf_mtime)) ∧
    (load_and_index pdf_path fs prev).parsed_pdf =
      (fs.pdf_exists &&
        !(cacheValid fs && !(load_from_json fs).isEmpty)) ∧
    (fs.pdf_exists = true →
      get_file_mtime fs.json_exists fs.json_mtime <
        get_file_mtime fs.pdf_exists fs.pdf_mtime →
      (load_and_index pdf_path fs prev).parsed_pdf = true) := by
  have hread : (load_and_index pdf_path fs prev).cache_read =
      cacheValid fs := by
    unfold load_and_index
    by_cases hv : cacheValid fs = true <;>
      by_cases he : (load_from_json fs).isEmpty = true <;>
      by_cases hp : fs.pdf_exists = true <;>
      simp [hv, he, hp]
  have hparse : (load_and_index pdf_path fs prev).parsed_pdf =
      (fs.pdf_exists &&
        !(cacheValid fs && !(load_from_json fs).isEmpty)) := by
    unfold load_and_index
    by_cases hv : cacheValid fs = true <;>
      by_cases he : (load_from_json fs).isEmpty = true <;>
      by_cases hp : fs.pdf_exists = true <;>
      simp [hv, he, hp]
  refine ⟨hread, rfl, hparse, fun hp hlt => ?_⟩
  have hv : cacheValid fs = false := by
    unfold cacheValid
    have : decide (get_file_mtime fs.json_exists fs.json_mtime ≥
        get_file_mtime fs.pdf_exists fs.pdf_mtime) = false := by
      simp only [decide_eq_false_iff_not]
      exact not_le.mpr hlt
    simp [this]
  rw [hparse, hv, hp]
  simp

/-- C8: after a fresh parse the cache file is overwritten iff at least one
record was produced; with zero parsed records nothing is written and the
index stays empty, without error. -/
theorem C8_cache_overwrite (pdf_path : String) (fs : FS) :
    ((load_and_index pdf_path fs none).cache_written =
      if (load_and_index pdf_path fs none).parsed_pdf = true ∧
          parsePdf pdf_path fs.pdf_pages ≠ []
        then some (parsePdf pdf_path fs.pdf_pages) else none) ∧
    ((load_and_index pdf_path fs none).parsed_pdf = true →
      parsePdf pdf_path fs.pdf_pages = [] →
      (load_and_index pdf_path fs none).cache_written = none ∧
      (load_and_index pdf_path fs none).vector_store = none) := by
  constructor
  · unfold load_and_index
    by_cases hv : cacheValid fs = true <;>
      by_cases he : (load_from_json fs).isEmpty = true <;>
      by_cases hp : fs.pdf_exists = true <;>
      by_cases hd : parsePdf pdf_path fs.pdf_pages = [] <;>
      simp_all
  · intro hparse hnil
    unfold load_and_index at *
    by_cases hv : cacheValid fs = true <;>
      by_cases he : (load_from_json fs).isEmpty = true <;>
      by_cases hp : fs.pdf_exists = true <;>
      simp_all

/-- C1: a line containing both `"ID: "` and `" | "` parses to exactly one
record whose raw text is the line and whose fields come from the
last-pair-wins field mapping of the trimmed `key: value` segments, with
defaults `"Unknown"`/`""`/`""`/`"0"`; any other line produces no record. -/
theorem C1_feature_row_parsing (pdf_path line : String) :
    ((containsSub line "ID: " && containsSub line " | ") = true →
      parseLines pdf_path [line] =
        [{ page_content := line,
           metadata :=
             [("source", pdf_path),
              ("feature_name",
                lastValue (segPairs (pySplit line " | ")) "ID" "Unknown"),
              ("category",
                lastValue (segPairs (pySplit line " | ")) "CAT" ""),
              ("description",
                lastValue (segPairs (pySplit line " | ")) "DESC" ""),
              ("value",
                lastValue (segPairs (pySplit line " | ")) "VAL" "0")] }]) ∧
    ((containsSub line "ID: " && containsSub line " | ") = false →
      parseLines pdf_path [line] = []) := by
  constructor
  · intro hg
    simp [parseLines, parseLine, hg, dictGet_buildMeta]
  · intro hg
    simp [parseLines, parseLine, hg]

/-- C1 witness: the spec's example row shape parses to its four fields. -/
theorem C1_feature_row_parsing_witness :
    (containsSub "ID: Launch #001 | CAT: Digital | DESC: metric | VAL: 42"
        "ID: " &&
      containsSub "ID: Launch #001 | CAT: Digital | DESC: metric | VAL: 42"
        " | ") = true ∧
    parseLines "featurelist.pdf"
        ["ID: Launch #001 | CAT: Digital | DESC: metric | VAL: 42"] =
      [{ page_content :=
           "ID: Launch #001 | CAT: Digital | DESC: metric | VAL: 42",
         metadata :=
           [("source", "featurelist.pdf"),
            ("feature_name", "Launch #001"),
            ("category", "Digital"),
            ("description", "metric"),
            ("value", "42")] }] := by
  refine ⟨by decide, ?_⟩
  rw [(C1_feature_row_parsing "featurelist.pdf"
    "ID: Launch #001 | CAT: Digital | DESC: metric | VAL: 42").1 (by decide)]
  decide

/-- C7: a segment without `:` contributes nothing to the field mapping
while the row still parses; a row is dropped exactly when it lacks
`"ID: "` or `" | "`. -/
theorem C7_colonless_segment (pdf_path line : String)
    (parts : List String) :
    buildMeta parts =
      buildMeta (parts.filter (fun p => containsSub p ":")) ∧
    (parseLine pdf_path line = none ↔
      (containsSub line "ID: " && containsSub line " | ") = false) := by
  refine ⟨buildMeta_filter parts, ?_⟩
  unfold parseLine
  by_cases hg : (containsSub line "ID: " && containsSub line " | ") = true
  · simp [hg]
  · have hg' : (containsSub line "ID: " && containsSub line " | ") = false := by
      simpa using hg
    simp [hg']

/-- C4: the selection service maps every hit of the `k = 10` query, in
order, to a `SelectedFeature` whose name is `"[{category}] {feature_name}"`,
whose reason embeds the hit's description and value, and whose score is the
hit's score; the result is empty exactly when there are no hits. -/
theorem C4_selection_service (searchFn : String → Nat → List SearchHit)
    (plan : MarketingPlan) :
    select_features_core searchFn plan =
      (searchFn (buildSearchQuery plan) 10).map hitToSelectedFeature ∧
    (select_features_core searchFn plan).length =
      (searchFn (buildSearchQuery plan) 10).length ∧
    (∀ i : Nat, (select_features_core searchFn plan)[i]? =
      ((searchFn (buildSearchQuery plan) 10)[i]?).map hitToSelectedFeature) ∧
    (select_features_core searchFn plan = [] ↔
      searchFn (buildSearchQuery plan) 10 = []) ∧
    (∀ (hit : SearchHit) (cat nm dsc vl : String),
      keyVal? hit.metadata "category" = some cat →
      keyVal? hit.metadata "feature_name" = some nm →
      keyVal? hit.metadata "description" = some dsc →
      keyVal? hit.metadata "value" = some vl →
      hitToSelectedFeature hit =
        { name := "[" ++ cat ++ "] " ++ nm,
          reason := "입력된 키워드와 \x27" ++ dsc ++ "\x27(값: " ++ vl ++
            ") 간의 연관성이 높음",
          similarity_score := hit.similarity_score }) := by
  refine ⟨rfl, ?_, ?_, ?_, ?_⟩
  · exact (List.length_map _ _).symm ▸ rfl
  · intro i
    unfold select_features_core
    exact List.getElem?_map hitToSelectedFeature _ i
  · unfold select_features_core
    constructor
    · intro h
      exact List.map_eq_nil_iff.mp h
    · intro h
      rw [h]
      rfl
  · intro hit cat nm dsc vl h1 h2 h3 h4
    have e1 := dictGet_of_keyVal hit.metadata "category" "" cat h1
    have e2 := dictGet_of_keyVal hit.metadata "feature_name"
      "Unknown_Feature" nm h2
    have e3 := dictGet_of_keyVal hit.metadata "description"
      hit.raw_text dsc h3
    have e4 := dictGet_of_keyVal hit.metadata "value" "0" vl h4
    simp only [hitToSelectedFeature]
    rw [e1, e2, e3, e4]

/-- C10: cache-deserialized records may carry an arbitrary (even empty)
metadata mapping; the selection service then falls back per field —
name `"[] Unknown_Feature"`, description the hit's raw text, value `"0"` —
and still yields one well-formed `SelectedFeature` per hit. -/
theorem C10_metadata_fallbacks (raw : String) (score : ℚ)
    (items : List CacheItem) (b1 b2 : Bool) (q1 q2 : ℚ)
    (pages : List String) :
    load_from_json ⟨b1, q1, b2, q2, some items, pages⟩ =
      docsOfItems items ∧
    docsOfItems [{ page_content := some raw, metadata := none }] =
      [{ page_content := raw, metadata := [] }] ∧
    hitToSelectedFeature ⟨raw, [], score⟩ =
      { name := "[] Unknown_Feature",
        reason := "입력된 키워드와 \x27" ++ raw ++ "\x27(값: " ++ "0" ++
          ") 간의 연관성이 높음",
        similarity_score := score } ∧
    ∀ hits : List SearchHit,
      (hits.map hitToSelectedFeature).length = hits.length := by
  refine ⟨rfl, rfl, ?_, fun hits => List.length_map _ _⟩
  unfold hitToSelectedFeature
  simp [dictGet]

end AiPoet
